import Mathlib

/-
Verification of the python-steganographer repository.

The repository ships a Next.js frontend (src/python-steganographer-frontend)
whose TypeScript source is embedded below, and documentation describing a
FastAPI steganography backend (python_steganographer/) whose implementation is
not part of the provided sources.  Definitions in namespace `Client` are
translated from the TypeScript files (api.ts, auth.ts, the panel components,
AuthContext).  Definitions in namespace `StegModel` are modelled from the
specification text of the backend protocol, as the backend code itself is
absent; each such definition says so in its doc comment.
-/

namespace StegModel

/-- Modelled from the spec: the DCT embedder partitions the image into blocks
of configurable size, default 8 (`dct_block_size`); the backend module
`python_steganographer/algorithms.py` is not in the provided sources. -/
def dctBlockSize : Nat := 8

/-- Modelled from the spec: the designated DCT coefficient is quantized by a
configurable factor, default 10 (`dct_quantization_factor`); the backend module
is not in the provided sources. -/
def dctQuantizationFactor : Nat := 10

/-- Modelled from the spec: the algorithm selector is a closed enumeration
with exactly the two values LSB and DCT (`AlgorithmType` in the backend
models.py, absent from the provided sources). -/
inductive Algorithm
  | lsb
  | dct
deriving DecidableEq

/-- Modelled from the spec: an image is a raster of RGB channels with a width
and a height.  Each channel field holds that channel's carrier slots in scan
order: for LSB one slot per pixel (the pixel value, whose least-significant
bit carries data), for DCT one slot per block (the designated transform
coefficient, compared against the quantization factor).  The backend image
module is not in the provided sources. -/
structure Image where
  width : Nat
  height : Nat
  red : List Nat
  green : List Nat
  blue : List Nat
deriving DecidableEq

/-- Modelled from the spec: one character is serialized to its 7-bit binary
form (least-significant bit first), one bit per carrier slot. -/
def charToBits (c : Nat) : List Bool :=
  [decide (c % 2 = 1), decide (c / 2 % 2 = 1), decide (c / 4 % 2 = 1),
   decide (c / 8 % 2 = 1), decide (c / 16 % 2 = 1), decide (c / 32 % 2 = 1),
   decide (c / 64 % 2 = 1)]

/-- Reassemble a 7-bit group (least-significant bit first) into a character. -/
def bitsToChar (bs : List Bool) : Nat :=
  bs.foldr (fun b acc => 2 * acc + cond b 1 0) 0

/-- The bit stream of a payload: each character contributes its 7 bits. -/
def payloadBits : List Nat → List Bool
  | [] => []
  | c :: cs => charToBits c ++ payloadBits cs

/-- Write a bit stream into carrier slots, one bit per slot; slots beyond the
stream are cleared (written with the zero bit), so a shorter payload stops
cleanly and the rest of the channel reads as the null sentinel. -/
def writeBits (write : Nat → Bool → Nat) : List Nat → List Bool → List Nat
  | [], _ => []
  | s :: ss, [] => write s false :: writeBits write ss []
  | s :: ss, b :: bs => write s b :: writeBits write ss bs

/-- Modelled from the spec: embedding a payload into one channel fails (is
rejected, not silently corrupted) if the required bits exceed the channel's
available slots; otherwise every slot is written. -/
def embedChannel (write : Nat → Bool → Nat) (slots : List Nat)
    (payload : List Nat) : Option (List Nat) :=
  if (payloadBits payload).length ≤ slots.length then
    some (writeBits write slots (payloadBits payload))
  else none

/-- Split a bit stream into consecutive 7-bit groups, dropping a trailing
partial group. -/
def groups7 : List Bool → List (List Bool)
  | b0 :: b1 :: b2 :: b3 :: b4 :: b5 :: b6 :: rest =>
      [b0, b1, b2, b3, b4, b5, b6] :: groups7 rest
  | _ => []

/-- Modelled from the spec: extraction stops at the null (all-zero) sentinel
group; absence of a sentinel before the channel is exhausted yields what was
read so far. -/
def takeUntilZero : List Nat → List Nat
  | [] => []
  | c :: cs => if c = 0 then [] else c :: takeUntilZero cs

/-- Modelled from the spec: extraction reads one bit from each slot of the
channel, reassembles 7-bit groups into characters and stops at the null
sentinel. -/
def extractChannel (read : Nat → Bool) (slots : List Nat) : List Nat :=
  takeUntilZero ((groups7 (slots.map read)).map bitsToChar)

/-- Modelled from the spec: LSB writes the bit into the least-significant bit
of the pixel. -/
def lsbWriteSlot (p : Nat) (b : Bool) : Nat := 2 * (p / 2) + cond b 1 0

/-- Modelled from the spec: LSB reads the least-significant bit of the pixel. -/
def lsbReadSlot (p : Nat) : Bool := decide (p % 2 = 1)

/-- Modelled from the spec: DCT perturbs the designated coefficient of the
block to the quantization factor for a 1 bit and to zero for a 0 bit. -/
def dctWriteSlot (_ : Nat) (b : Bool) : Nat := cond b dctQuantizationFactor 0

/-- Modelled from the spec: DCT extraction reads the designated coefficient
and thresholds it against the quantization factor. -/
def dctReadSlot (c : Nat) : Bool := decide (dctQuantizationFactor ≤ c)

/-- Per-algorithm slot writer. -/
def writeSlot : Algorithm → Nat → Bool → Nat
  | .lsb => lsbWriteSlot
  | .dct => dctWriteSlot

/-- Per-algorithm slot reader. -/
def readSlot : Algorithm → Nat → Bool
  | .lsb => lsbReadSlot
  | .dct => dctReadSlot

/-- Modelled from the spec: the number of carrier slots per channel is one per
pixel for LSB and one per blocksize-by-blocksize block for DCT. -/
def slotCount (a : Algorithm) (w h : Nat) : Nat :=
  match a with
  | .lsb => w * h
  | .dct => (w / dctBlockSize) * (h / dctBlockSize)

/-- Modelled from the spec: `capacity(image, algorithm)` is the maximal
embeddable character count per channel; one character requires 7 bits, one
bit per slot. -/
def capacity (a : Algorithm) (w h : Nat) : Nat := slotCount a w h / 7

/-- A well-formed image for an algorithm: each channel holds exactly the
slot count determined by the dimensions. -/
def WF (a : Algorithm) (img : Image) : Prop :=
  img.red.length = slotCount a img.width img.height ∧
  img.green.length = slotCount a img.width img.height ∧
  img.blue.length = slotCount a img.width img.height

/-- A message character is a nonzero 7-bit value: the spec serializes
characters in 7 bits (ASCII) and reserves the all-zero group as the null
sentinel terminating extraction. -/
def ValidMessage (msg : List Nat) : Prop := ∀ c ∈ msg, 0 < c ∧ c < 128

/-- Modelled from the spec: the transient single-use encryption bundle, a
fresh asymmetric keypair together with a fresh symmetric key and
initialization vector generated anew per encode call.  The asymmetric pair is
represented by the private component; the public component is derived from
it. -/
structure Bundle where
  symKey : Nat
  iv : Nat
  priv : Nat
deriving DecidableEq

/-- Modelled from the spec: one keystream step of the symmetric cipher in
feedback mode, a key-dependent bijection on the nonzero 7-bit characters
(the null character is reserved as the channel sentinel). -/
def encChar (k c : Nat) : Nat := (c - 1 + k % 127) % 127 + 1

/-- Inverse of `encChar` on nonzero 7-bit characters. -/
def decChar (k c : Nat) : Nat := (c - 1 + (127 - k % 127)) % 127 + 1

/-- Modelled from the spec: symmetric encryption in feedback mode, the
keystream position advancing per character from the initialization vector. -/
def cfbEncryptFrom (key : Nat) : Nat → List Nat → List Nat
  | _, [] => []
  | i, c :: cs => encChar (key + i) c :: cfbEncryptFrom key (i + 1) cs

/-- Encrypt a message with the fresh symmetric key and IV. -/
def cfbEncrypt (key iv : Nat) (msg : List Nat) : List Nat :=
  cfbEncryptFrom key iv msg

/-- Position-indexed symmetric decryption. -/
def cfbDecryptFrom (key : Nat) : Nat → List Nat → List Nat
  | _, [] => []
  | i, c :: cs => decChar (key + i) c :: cfbDecryptFrom key (i + 1) cs

/-- Decrypt a ciphertext with the recovered symmetric key and IV. -/
def cfbDecrypt (key iv : Nat) (ct : List Nat) : List Nat :=
  cfbDecryptFrom key iv ct

/-- Serialize a natural number into nonzero 7-bit characters, base 127
little-endian, each digit shifted by one past the sentinel; structural fuel
equals the number itself. -/
def natToCharsAux : Nat → Nat → List Nat
  | _, 0 => []
  | 0, _ + 1 => []
  | fuel + 1, n + 1 => ((n + 1) % 127 + 1) :: natToCharsAux fuel ((n + 1) / 127)

/-- Serialize a natural number into nonzero 7-bit characters. -/
def natToChars (n : Nat) : List Nat := natToCharsAux n n

/-- Deserialize the base-127 character form back into a natural number. -/
def charsToNat : List Nat → Nat
  | [] => 0
  | c :: cs => (c - 1) + 127 * charsToNat cs

/-- Modelled from the spec: asymmetric encryption of the symmetric key
material under the public key, represented as a keyed bijection on naturals
invertible by the private component. -/
def rsaEncrypt (pub m : Nat) : Nat := m + pub

/-- Modelled from the spec: asymmetric decryption with the private key
recovered from the blue channel. -/
def rsaDecrypt (priv c : Nat) : Nat := c - priv

/-- Modelled from the spec: the green channel carries the symmetric key and
IV encrypted with the asymmetric public key. -/
def keyChannelPayload (b : Bundle) : List Nat :=
  natToChars (rsaEncrypt b.priv (Nat.pair b.symKey b.iv))

/-- Modelled from the spec: the blue channel carries the private key bytes
with their armor framing stripped. -/
def privChannelPayload (b : Bundle) : List Nat := natToChars b.priv

/-- Modelled from the spec: encode encrypts the message with the fresh
symmetric key and IV, embeds the ciphertext in the red channel, the
asymmetrically encrypted symmetric key material in the green channel and the
private key in the blue channel; it fails rather than truncating when a
payload exceeds its channel. -/
def encode (img : Image) (msg : List Nat) (a : Algorithm) (b : Bundle) :
    Option Image :=
  (embedChannel (writeSlot a) img.red (cfbEncrypt b.symKey b.iv msg)).bind fun r =>
  (embedChannel (writeSlot a) img.green (keyChannelPayload b)).bind fun g =>
  (embedChannel (writeSlot a) img.blue (privChannelPayload b)).map fun bl =>
  { img with red := r, green := g, blue := bl }

/-- Modelled from the spec: decode extracts the three channel payloads,
recovers the private key from the blue channel, decrypts the symmetric key
and IV from the green channel with it, and decrypts the red channel
ciphertext; an image with no embedded message yields the empty message. -/
def decode (img : Image) (a : Algorithm) : List Nat :=
  cfbDecrypt
    (Nat.unpair (rsaDecrypt (charsToNat (extractChannel (readSlot a) img.blue))
      (charsToNat (extractChannel (readSlot a) img.green)))).1
    (Nat.unpair (rsaDecrypt (charsToNat (extractChannel (readSlot a) img.blue))
      (charsToNat (extractChannel (readSlot a) img.green)))).2
    (extractChannel (readSlot a) img.red)

/-- An image whose carrier slots are all zero: no embedded message. -/
def blankImage (a : Algorithm) (w h : Nat) : Image :=
  { width := w, height := h,
    red := List.replicate (slotCount a w h) 0,
    green := List.replicate (slotCount a w h) 0,
    blue := List.replicate (slotCount a w h) 0 }

end StegModel

namespace StegModel

lemma readSlot_writeSlot (a : Algorithm) (s : Nat) (b : Bool) :
    readSlot a (writeSlot a s b) = b := by
  cases a <;> cases b <;>
    simp [readSlot, writeSlot, lsbReadSlot, lsbWriteSlot, dctReadSlot,
      dctWriteSlot, dctQuantizationFactor] <;> omega

lemma map_read_writeBits (write : Nat → Bool → Nat) (read : Nat → Bool)
    (h : ∀ s b, read (write s b) = b) (slots : List Nat) :
    ∀ bits : List Bool,
      (writeBits write slots bits).map read =
        bits.take slots.length ++ List.replicate (slots.length - bits.length) false := by
  induction slots with
  | nil => intro bits; simp [writeBits]
  | cons s ss ih =>
    intro bits
    cases bits with
    | nil => simp [writeBits, h, ih [], List.replicate_succ]
    | cons b bs => simp [writeBits, h, ih bs]

lemma payloadBits_length (p : List Nat) : (payloadBits p).length = 7 * p.length := by
  induction p with
  | nil => simp [payloadBits]
  | cons c cs ih =>
    simp [payloadBits, charToBits, ih]
    omega

lemma groups7_payloadBits (p : List Nat) :
    ∀ rest : List Bool,
      groups7 (payloadBits p ++ rest) = p.map charToBits ++ groups7 rest := by
  induction p with
  | nil => intro rest; simp [payloadBits]
  | cons c cs ih =>
    intro rest
    show groups7 ((charToBits c ++ payloadBits cs) ++ rest) = _
    rw [List.append_assoc]
    simp only [charToBits, List.cons_append, List.nil_append, List.map_cons]
    rw [groups7, ih rest]

lemma groups7_replicate_false (k : Nat) :
    ∀ g ∈ groups7 (List.replicate k false), g = List.replicate 7 false := by
  induction k using Nat.strong_induction_on with
  | _ k ih =>
    rcases Nat.lt_or_ge k 7 with hk | hk
    · intro g hg
      interval_cases k <;> simp [List.replicate, groups7] at hg
    · obtain ⟨m, rfl⟩ : ∃ m, k = 7 + m := ⟨k - 7, by omega⟩
      intro g hg
      rw [List.replicate_add] at hg
      simp only [List.replicate, List.cons_append, List.nil_append] at hg
      rw [groups7] at hg
      rcases List.mem_cons.mp hg with rfl | hg
      · rfl
      · exact ih m (by omega) g hg

lemma bitsToChar_charToBits : ∀ c < 128, bitsToChar (charToBits c) = c := by decide

lemma bitsToChar_replicate_false : bitsToChar (List.replicate 7 false) = 0 := by decide

lemma map_bitsToChar_charToBits (p : List Nat) (hv : ValidMessage p) :
    (p.map charToBits).map bitsToChar = p := by
  induction p with
  | nil => rfl
  | cons c cs ih =>
    have hc := hv c (by simp)
    simp [bitsToChar_charToBits c hc.2,
      ih (fun x hx => hv x (by simp [hx]))]

lemma mem_groups7_replicate_zero (k : Nat) :
    ∀ c ∈ (groups7 (List.replicate k false)).map bitsToChar, c = 0 := by
  intro c hc
  rw [List.mem_map] at hc
  obtain ⟨g, hg, rfl⟩ := hc
  rw [groups7_replicate_false k g hg]
  exact bitsToChar_replicate_false

lemma takeUntilZero_eq_nil (xs : List Nat) (h : ∀ c ∈ xs, c = 0) :
    takeUntilZero xs = [] := by
  cases xs with
  | nil => rfl
  | cons c cs => simp [takeUntilZero, h c (by simp)]

lemma takeUntilZero_append (xs ys : List Nat) (hx : ∀ c ∈ xs, c ≠ 0)
    (hy : ∀ c ∈ ys, c = 0) : takeUntilZero (xs ++ ys) = xs := by
  induction xs with
  | nil => simpa using takeUntilZero_eq_nil ys hy
  | cons c cs ih =>
    simp [takeUntilZero, hx c (by simp),
      ih (fun x hx2 => hx x (by simp [hx2]))]

lemma extract_embedChannel (write : Nat → Bool → Nat) (read : Nat → Bool)
    (h : ∀ s b, read (write s b) = b) (slots payload out : List Nat)
    (hv : ValidMessage payload)
    (he : embedChannel write slots payload = some out) :
    extractChannel read out = payload := by
  unfold embedChannel at he
  split at he
  case isTrue hlen =>
    cases he
    unfold extractChannel
    rw [map_read_writeBits write read h slots (payloadBits payload),
      List.take_of_length_le hlen, groups7_payloadBits, List.map_append,
      map_bitsToChar_charToBits payload hv]
    exact takeUntilZero_append _ _
      (fun c hc => Nat.pos_iff_ne_zero.mp (hv c hc).1)
      (mem_groups7_replicate_zero _)
  case isFalse => exact absurd he (by simp)

end StegModel

namespace StegModel

lemma encChar_valid (k c : Nat) : 0 < encChar k c ∧ encChar k c < 128 := by
  unfold encChar
  have h1 : (c - 1 + k % 127) % 127 < 127 := Nat.mod_lt _ (by norm_num)
  omega

lemma decChar_encChar (k c : Nat) (h0 : 0 < c) (h1 : c < 128) :
    decChar k (encChar k c) = c := by
  unfold encChar decChar
  have hk : k % 127 < 127 := Nat.mod_lt _ (by norm_num)
  have h2 : (c - 1 + k % 127) % 127 + 1 - 1 = (c - 1 + k % 127) % 127 := by omega
  rw [h2, Nat.mod_add_mod]
  have h3 : c - 1 + k % 127 + (127 - k % 127) = c - 1 + 127 := by omega
  rw [h3, Nat.add_mod_right, Nat.mod_eq_of_lt (by omega)]
  omega

lemma cfbDecryptFrom_cfbEncryptFrom (key : Nat) (msg : List Nat) :
    ∀ i : Nat, ValidMessage msg →
      cfbDecryptFrom key i (cfbEncryptFrom key i msg) = msg := by
  induction msg with
  | nil => intro i _; rfl
  | cons c cs ih =>
    intro i hv
    have hc := hv c (by simp)
    simp [cfbEncryptFrom, cfbDecryptFrom,
      decChar_encChar (key + i) c hc.1 hc.2,
      ih (i + 1) (fun x hx => hv x (by simp [hx]))]

lemma cfbDecrypt_cfbEncrypt (key iv : Nat) (msg : List Nat)
    (hv : ValidMessage msg) :
    cfbDecrypt key iv (cfbEncrypt key iv msg) = msg :=
  cfbDecryptFrom_cfbEncryptFrom key msg iv hv

lemma cfbEncryptFrom_valid (key : Nat) (msg : List Nat) :
    ∀ i : Nat, ValidMessage (cfbEncryptFrom key i msg) := by
  induction msg with
  | nil => intro i c hc; simp [cfbEncryptFrom] at hc
  | cons c cs ih =>
    intro i x hx
    simp only [cfbEncryptFrom, List.mem_cons] at hx
    rcases hx with rfl | hx
    · exact encChar_valid (key + i) c
    · exact ih (i + 1) x hx

lemma cfbEncrypt_valid (key iv : Nat) (msg : List Nat) :
    ValidMessage (cfbEncrypt key iv msg) :=
  cfbEncryptFrom_valid key msg iv

lemma charsToNat_natToCharsAux :
    ∀ fuel n : Nat, n ≤ fuel → charsToNat (natToCharsAux fuel n) = n := by
  intro fuel
  induction fuel with
  | zero =>
    intro n hn
    have hz : n = 0 := by omega
    subst hz; rfl
  | succ f ih =>
    intro n hn
    cases n with
    | zero => rfl
    | succ m =>
      have hdiv : (m + 1) / 127 ≤ f := by
        have := Nat.div_lt_self (Nat.succ_pos m) (by norm_num : 1 < 127)
        omega
      simp only [natToCharsAux, charsToNat, ih _ hdiv]
      have := Nat.mod_add_div (m + 1) 127
      omega

lemma charsToNat_natToChars (n : Nat) : charsToNat (natToChars n) = n :=
  charsToNat_natToCharsAux n n le_rfl

lemma natToCharsAux_valid :
    ∀ fuel n : Nat, ValidMessage (natToCharsAux fuel n) := by
  intro fuel
  induction fuel with
  | zero =>
    intro n c hc
    cases n <;> simp [natToCharsAux] at hc
  | succ f ih =>
    intro n c hc
    cases n with
    | zero => simp [natToCharsAux] at hc
    | succ m =>
      simp only [natToCharsAux, List.mem_cons] at hc
      rcases hc with rfl | hc
      · have : (m + 1) % 127 < 127 := Nat.mod_lt _ (by norm_num)
        omega
      · exact ih _ c hc

lemma natToChars_valid (n : Nat) : ValidMessage (natToChars n) :=
  natToCharsAux_valid n n

lemma natToChars_injective {m n : Nat} (h : natToChars m = natToChars n) :
    m = n := by
  have hm := charsToNat_natToChars m
  rw [h, charsToNat_natToChars] at hm
  exact hm.symm

end StegModel

namespace StegModel

lemma encode_eq_some {img out : Image} {msg : List Nat} {a : Algorithm}
    {b : Bundle} (h : encode img msg a b = some out) :
    ∃ r g bl,
      embedChannel (writeSlot a) img.red (cfbEncrypt b.symKey b.iv msg) = some r ∧
      embedChannel (writeSlot a) img.green (keyChannelPayload b) = some g ∧
      embedChannel (writeSlot a) img.blue (privChannelPayload b) = some bl ∧
      out = { img with red := r, green := g, blue := bl } := by
  unfold encode at h
  obtain ⟨r, hr, h2⟩ := Option.bind_eq_some.mp h
  obtain ⟨g, hg, h3⟩ := Option.bind_eq_some.mp h2
  obtain ⟨bl, hbl, h4⟩ := Option.map_eq_some'.mp h3
  exact ⟨r, g, bl, hr, hg, hbl, h4.symm⟩

lemma readSlot_zero (a : Algorithm) : readSlot a 0 = false := by
  cases a <;> rfl

lemma extractChannel_replicate_zero (a : Algorithm) (n : Nat) :
    extractChannel (readSlot a) (List.replicate n 0) = [] := by
  unfold extractChannel
  rw [List.map_replicate, readSlot_zero]
  exact takeUntilZero_eq_nil _ (mem_groups7_replicate_zero n)

lemma decode_blankImage (a : Algorithm) (w h : Nat) :
    decode (blankImage a w h) a = [] := by
  unfold decode blankImage
  simp only [extractChannel_replicate_zero]
  rfl

end StegModel

namespace StegModel

/-- C1: for every supported image, every algorithm in LSB and DCT, and every
(7-bit, sentinel-free) message whose length is at most the capacity of the
image under that algorithm, decoding the image produced by encoding the
message into the image with that algorithm returns exactly the original
message. -/
theorem steg_decode_encode_roundtrip (img out : Image) (msg : List Nat)
    (a : Algorithm) (b : Bundle) (hwf : WF a img) (hv : ValidMessage msg)
    (hcap : msg.length ≤ capacity a img.width img.height)
    (henc : encode img msg a b = some out) :
    decode out a = msg := by
  obtain ⟨r, g, bl, hr, hg, hbl, rfl⟩ := encode_eq_some henc
  have er : extractChannel (readSlot a) r = cfbEncrypt b.symKey b.iv msg :=
    extract_embedChannel _ _ (readSlot_writeSlot a) _ _ _
      (cfbEncrypt_valid _ _ _) hr
  have eg : extractChannel (readSlot a) g = keyChannelPayload b :=
    extract_embedChannel _ _ (readSlot_writeSlot a) _ _ _
      (natToChars_valid _) hg
  have ebl : extractChannel (readSlot a) bl = privChannelPayload b :=
    extract_embedChannel _ _ (readSlot_writeSlot a) _ _ _
      (natToChars_valid _) hbl
  unfold decode
  dsimp only
  rw [er, eg, ebl]
  unfold privChannelPayload keyChannelPayload
  rw [charsToNat_natToChars, charsToNat_natToChars]
  unfold rsaEncrypt rsaDecrypt
  rw [Nat.add_sub_cancel, Nat.unpair_pair]
  exact cfbDecrypt_cfbEncrypt _ _ _ hv

/-- A concrete 28-by-1 LSB image for the round-trip witness. -/
def c1Img : Image :=
  { width := 28, height := 1, red := List.replicate 28 0,
    green := List.replicate 28 0, blue := List.replicate 28 0 }

/-- The concrete message HI (ASCII 72, 73). -/
def c1Msg : List Nat := [72, 73]

/-- A concrete single-use encryption bundle. -/
def c1Bundle : Bundle := { symKey := 1, iv := 0, priv := 1 }

/-- The image produced by the concrete encode call. -/
def c1Out : Image := (encode c1Img c1Msg .lsb c1Bundle).getD c1Img

/-- Witness for C1: the round-trip theorem applied to a concrete 28-pixel
LSB image, the message HI and a concrete bundle. -/
theorem steg_decode_encode_roundtrip_witness : decode c1Out .lsb = c1Msg :=
  steg_decode_encode_roundtrip c1Img c1Out c1Msg .lsb c1Bundle
    ⟨rfl, rfl, rfl⟩ (by unfold ValidMessage; decide) (by decide) (by rfl)

/-- C2: for every image of pixel dimensions width by height, the LSB capacity
is the floor of (width times height) over 7 characters per channel, and for a
64-by-64 image that is 585; moreover embedding a payload into a channel
succeeds exactly when the payload length is at most the channel's slot count
divided by 7. -/
theorem capacity_lsb_formula :
    (∀ w h : Nat, capacity .lsb w h = w * h / 7) ∧
    capacity .lsb 64 64 = 585 ∧
    (∀ (write : Nat → Bool → Nat) (slots payload : List Nat),
      (embedChannel write slots payload).isSome ↔
        payload.length ≤ slots.length / 7) := by
  refine ⟨fun w h => rfl, by norm_num [capacity, slotCount], ?_⟩
  intro write slots payload
  unfold embedChannel
  split
  case isTrue hle =>
    rw [payloadBits_length] at hle
    have hq : payload.length ≤ slots.length / 7 := by
      rw [Nat.le_div_iff_mul_le (by norm_num : 0 < 7)]
      omega
    simp [hq]
  case isFalse hle =>
    rw [payloadBits_length] at hle
    have hq : ¬ payload.length ≤ slots.length / 7 := by
      rw [Nat.le_div_iff_mul_le (by norm_num : 0 < 7)]
      omega
    simp [hq]

/-- C5: two encode calls with identical image, message and algorithm but
distinct freshly generated key bundles produce output images that differ. -/
theorem encode_fresh_bundles_differ (img o1 o2 : Image) (msg : List Nat)
    (a : Algorithm) (b1 b2 : Bundle) (hne : b1 ≠ b2)
    (h1 : encode img msg a b1 = some o1) (h2 : encode img msg a b2 = some o2) :
    o1 ≠ o2 := by
  intro heq
  obtain ⟨r1, g1, bl1, hr1, hg1, hbl1, ho1⟩ := encode_eq_some h1
  obtain ⟨r2, g2, bl2, hr2, hg2, hbl2, ho2⟩ := encode_eq_some h2
  rw [ho1, ho2] at heq
  have hgeq : g1 = g2 := congrArg Image.green heq
  have hbleq : bl1 = bl2 := congrArg Image.blue heq
  have ekey1 := extract_embedChannel _ _ (readSlot_writeSlot a) _ _ _
    (natToChars_valid _) hg1
  have ekey2 := extract_embedChannel _ _ (readSlot_writeSlot a) _ _ _
    (natToChars_valid _) hg2
  have epriv1 := extract_embedChannel _ _ (readSlot_writeSlot a) _ _ _
    (natToChars_valid _) hbl1
  have epriv2 := extract_embedChannel _ _ (readSlot_writeSlot a) _ _ _
    (natToChars_valid _) hbl2
  have hkey : natToChars (rsaEncrypt b1.priv (Nat.pair b1.symKey b1.iv)) =
      natToChars (rsaEncrypt b2.priv (Nat.pair b2.symKey b2.iv)) := by
    rw [← ekey1, ← ekey2, hgeq]
  have hpriv : natToChars b1.priv = natToChars b2.priv := by
    rw [← epriv1, ← epriv2, hbleq]
  have hp : b1.priv = b2.priv := natToChars_injective hpriv
  have hk := natToChars_injective hkey
  unfold rsaEncrypt at hk
  rw [hp] at hk
  have hpair : Nat.pair b1.symKey b1.iv = Nat.pair b2.symKey b2.iv := by omega
  have hsi := Nat.pair_eq_pair.mp hpair
  apply hne
  cases b1
  cases b2
  simp_all

/-- A concrete 7-by-1 LSB image for the forward-secrecy witness. -/
def c5Img : Image :=
  { width := 7, height := 1, red := List.replicate 7 0,
    green := List.replicate 7 0, blue := List.replicate 7 0 }

/-- The concrete one-character message H (ASCII 72). -/
def c5Msg : List Nat := [72]

/-- The first concrete encryption bundle. -/
def c5B1 : Bundle := { symKey := 1, iv := 0, priv := 1 }

/-- The second concrete encryption bundle, with a different private key. -/
def c5B2 : Bundle := { symKey := 1, iv := 0, priv := 2 }

/-- Output of the first concrete encode call. -/
def c5O1 : Image := (encode c5Img c5Msg .lsb c5B1).getD c5Img

/-- Output of the second concrete encode call. -/
def c5O2 : Image := (encode c5Img c5Msg .lsb c5B2).getD c5Img

/-- Witness for C5: the two concrete encode calls on the same image and
message with distinct bundles produce distinct output images. -/
theorem encode_fresh_bundles_differ_witness : c5O1 ≠ c5O2 :=
  encode_fresh_bundles_differ c5Img c5O1 c5O2 c5Msg .lsb c5B1 c5B2
    (by decide) (by rfl) (by rfl)

end StegModel

namespace Client

/-- The algorithm enumeration of src/lib/types.ts: `AlgorithmType`, with
members LSB and DCT. -/
inductive AlgorithmType
  | LSB
  | DCT
deriving DecidableEq

/-- The string value carried by each `AlgorithmType` member on the wire
(types.ts assigns LSB the string lsb and DCT the string dct). -/
def wireAlgorithm : AlgorithmType → String
  | .LSB => "lsb"
  | .DCT => "dct"

/-- `EncodeRequest` of types.ts. -/
structure EncodeRequest where
  imageData : String
  outputFormat : String
  message : String
  algorithm : AlgorithmType
deriving DecidableEq

/-- `DecodeRequest` of types.ts. -/
structure DecodeRequest where
  imageData : String
  algorithm : AlgorithmType
deriving DecidableEq

/-- `CapacityRequest` of types.ts. -/
structure CapacityRequest where
  imageData : String
  algorithm : AlgorithmType
deriving DecidableEq

/-- The snake-case wire payload built inside `encodeImage` in api.ts. -/
structure EncodeWire where
  image_data : String
  output_format : String
  message : String
  algorithm : String
deriving DecidableEq

/-- The snake-case wire payload built inside `decodeImage` in api.ts. -/
structure DecodeWire where
  image_data : String
  algorithm : String
deriving DecidableEq

/-- The snake-case wire payload built inside `getImageCapacity` in api.ts. -/
structure CapacityWire where
  image_data : String
  algorithm : String
deriving DecidableEq

/-- The payload construction of `encodeImage` (api.ts lines 120-126):
camelCase request fields renamed to snake_case, the algorithm field passed
through unchanged. -/
def encodeWire (r : EncodeRequest) : EncodeWire :=
  { image_data := r.imageData, output_format := r.outputFormat,
    message := r.message, algorithm := wireAlgorithm r.algorithm }

/-- The payload construction of `decodeImage` (api.ts lines 157-161). -/
def decodeWire (r : DecodeRequest) : DecodeWire :=
  { image_data := r.imageData, algorithm := wireAlgorithm r.algorithm }

/-- The payload construction of `getImageCapacity` (api.ts lines 192-196). -/
def capacityWire (r : CapacityRequest) : CapacityWire :=
  { image_data := r.imageData, algorithm := wireAlgorithm r.algorithm }

/-- `isSuccessResponse` of api.ts: the body's optional code field is defined
and lies in the 2xx range. -/
def isSuccessResponse (code : Option Int) : Bool :=
  match code with
  | none => false
  | some c => decide (200 ≤ c) && decide (c < 300)

/-- JavaScript string truthiness for optional response fields: undefined and
the empty string are falsy. -/
def truthy : Option String → Option String
  | none => none
  | some m => if m = "" then none else some m

/-- JavaScript `a || b` on strings: the fallback replaces a falsy (empty)
value. -/
def orElse (m fallback : String) : String :=
  if m = "" then fallback else m

/-- The error value inspected by `extractErrorMessage` in api.ts: an axios
error carrying a response, an axios error with a request but no response, an
axios error that failed before sending, or a plain (non-axios) thrown
error. -/
inductive RequestError
  | responseError (message detail : Option String) (status : Int)
      (statusText : String)
  | noResponse
  | requestSetup (message : String)
  | nonAxios (message : String)
deriving DecidableEq

/-- `extractErrorMessage` of api.ts lines 55-81: for an axios error with a
response it prefers the body's message, then the body's detail, then a
generic server-error string; without a response it reports the backend as
unreachable; a non-axios error yields the fixed fallback string. -/
def extractErrorMessage : RequestError → String
  | .responseError message detail status statusText =>
    match truthy message with
    | some m => m
    | none =>
      match truthy detail with
      | some d => d
      | none => "Server error: " ++ toString status ++ " " ++ statusText
  | .noResponse => "No response from server. Please check if the backend is running."
  | .requestSetup m => "Request failed: " ++ m
  | .nonAxios _ => "An unexpected error occurred"

/-- The response body of /api/image/encode as received by `encodeImage`. -/
structure EncodeBody where
  code : Option Int
  message : String
  timestamp : String
  image_data : String
deriving DecidableEq

/-- The response body of /api/image/decode as received by `decodeImage`. -/
structure DecodeBody where
  code : Option Int
  message : String
  timestamp : String
  decoded_message : String
deriving DecidableEq

/-- The response body of /api/image/capacity as received by
`getImageCapacity`. -/
structure CapacityBody where
  code : Option Int
  message : String
  timestamp : String
  capacity_characters : Int
deriving DecidableEq

/-- The response body of /api/login as received by `login`. -/
structure LoginBody where
  code : Option Int
  message : String
  timestamp : String
deriving DecidableEq

/-- `EncodeResponse` of types.ts, the camelCase value returned on success. -/
structure EncodeResponse where
  code : Int
  message : String
  timestamp : String
  imageData : String
deriving DecidableEq

/-- `DecodeResponse` of types.ts. -/
structure DecodeResponse where
  code : Int
  message : String
  timestamp : String
  decodedMessage : String
deriving DecidableEq

/-- `CapacityResponse` of types.ts. -/
structure CapacityResponse where
  code : Int
  message : String
  timestamp : String
  capacityCharacters : Int
deriving DecidableEq

/-- `LoginResponse` of types.ts. -/
structure LoginResponse where
  code : Int
  message : String
  timestamp : String
deriving DecidableEq

/-- `encodeImage` of api.ts lines 116-151, applied to a response body
delivered by a resolved request: on a success code the converted camelCase
payload is returned; otherwise the inner `throw new Error(data.message ||
fallback)` is caught by the function's own catch block, whose
`extractErrorMessage` sees a plain non-axios Error and so rethrows the fixed
string instead of the body's message. -/
def encodeImage (b : EncodeBody) : Except String EncodeResponse :=
  if isSuccessResponse b.code then
    .ok { code := b.code.getD 0, message := b.message,
          timestamp := b.timestamp, imageData := b.image_data }
  else
    .error (extractErrorMessage (.nonAxios (orElse b.message "Image encoding failed")))

/-- `decodeImage` of api.ts lines 153-186, same structure as `encodeImage`. -/
def decodeImage (b : DecodeBody) : Except String DecodeResponse :=
  if isSuccessResponse b.code then
    .ok { code := b.code.getD 0, message := b.message,
          timestamp := b.timestamp, decodedMessage := b.decoded_message }
  else
    .error (extractErrorMessage (.nonAxios (orElse b.message "Image decoding failed")))

/-- `getImageCapacity` of api.ts lines 188-221, same structure. -/
def getImageCapacity (b : CapacityBody) : Except String CapacityResponse :=
  if isSuccessResponse b.code then
    .ok { code := b.code.getD 0, message := b.message,
          timestamp := b.timestamp, capacityCharacters := b.capacity_characters }
  else
    .error (extractErrorMessage (.nonAxios (orElse b.message "Capacity check failed")))

/-- `login` of api.ts lines 97-114, same structure (it returns the body
itself on success). -/
def login (b : LoginBody) : Except String LoginResponse :=
  if isSuccessResponse b.code then
    .ok { code := b.code.getD 0, message := b.message, timestamp := b.timestamp }
  else
    .error (extractErrorMessage (.nonAxios (orElse b.message "Login failed")))

end Client

namespace Client

/-- The EncodePanel state fields consulted by its encode handler: the message
textarea, the fetched capacity (null until known) and the loading flag. -/
structure EncodePanelState where
  message : String
  capacity : Option Nat
  loading : Bool
deriving DecidableEq

/-- What one press of the encode button does: either set an error message and
return without any request, or issue the encode request with the given wire
payload. -/
inductive EncodeAction
  | setError (message : String)
  | sendRequest (payload : EncodeWire)
deriving DecidableEq

/-- The over-capacity error text built by EncodePanel.handleEncode. -/
def tooLongError (c : Nat) : String :=
  "Message is too long! Maximum " ++ toString c ++ " characters allowed."

/-- `EncodePanel.handleEncode`: an all-whitespace message sets an error and
returns; a message longer than a known capacity sets an error and returns;
otherwise `encodeImage` is called with the payload. -/
def handleEncode (st : EncodePanelState) (imageData imageFormat : String)
    (algorithm : AlgorithmType) : EncodeAction :=
  if st.message.trim = "" then
    .setError "Please enter a message to encode"
  else
    match st.capacity with
    | some c =>
      if c < st.message.length then .setError (tooLongError c)
      else .sendRequest (encodeWire
        { imageData := imageData, outputFormat := imageFormat,
          message := st.message, algorithm := algorithm })
    | none => .sendRequest (encodeWire
        { imageData := imageData, outputFormat := imageFormat,
          message := st.message, algorithm := algorithm })

/-- `isOverCapacity` in EncodePanel: the capacity is known and the character
count exceeds it. -/
def isOverCapacity (st : EncodePanelState) : Bool :=
  match st.capacity with
  | some c => decide (c < st.message.length)
  | none => false

/-- The disabled condition of the encode button: loading, or a blank message,
or a message over capacity. -/
def encodeButtonDisabled (st : EncodePanelState) : Bool :=
  st.loading || decide (st.message.trim = "") || isOverCapacity st

/-- The DecodePanel state set by its decode handler. -/
structure DecodePanelState where
  decodedMessage : Option String
  error : Option String
  loading : Bool
deriving DecidableEq

/-- `DecodePanel.handleDecode` outcome handling: a resolved decode stores the
decoded message and clears the error; a rejected decode stores the error and
clears the message. -/
def handleDecodeResult (r : Except String String) : DecodePanelState :=
  match r with
  | .ok m => { decodedMessage := some m, error := none, loading := false }
  | .error e => { decodedMessage := none, error := some e, loading := false }

/-- What the decoded-message block of DecodePanel renders: nothing while the
decoded message is null, the message text when it is non-empty, and the
no-message-found notice when it is the empty string. -/
inductive DecodedDisplay
  | hidden
  | messageText (text : String)
  | noMessageFound
deriving DecidableEq

/-- The rendering rule of DecodePanel for the decoded message. -/
def decodedDisplay (st : DecodePanelState) : DecodedDisplay :=
  match st.decodedMessage with
  | none => .hidden
  | some m => if m = "" then .noMessageFound else .messageText m

/-- The browser localStorage visible to lib/auth.ts: a map from keys to
stored strings. -/
def LocalStorage : Type := String → Option String

/-- `localStorage.setItem`. -/
def setItem (s : LocalStorage) (key value : String) : LocalStorage :=
  fun k => if k = key then some value else s k

/-- `localStorage.getItem`. -/
def getItem (s : LocalStorage) (key : String) : Option String := s key

/-- `localStorage.removeItem`. -/
def removeItem (s : LocalStorage) (key : String) : LocalStorage :=
  fun k => if k = key then none else s k

/-- `API_KEY_STORAGE_KEY` of lib/auth.ts. -/
def apiKeyStorageKey : String := "python_steganographer_api_key"

/-- `saveApiKey` of lib/auth.ts. -/
def saveApiKey (apiKey : String) (s : LocalStorage) : LocalStorage :=
  setItem s apiKeyStorageKey apiKey

/-- `getApiKey` of lib/auth.ts. -/
def getApiKey (s : LocalStorage) : Option String :=
  getItem s apiKeyStorageKey

/-- `removeApiKey` of lib/auth.ts. -/
def removeApiKey (s : LocalStorage) : LocalStorage :=
  removeItem s apiKeyStorageKey

/-- `isAuthenticated` of lib/auth.ts: an API key is stored. -/
def isAuthenticated (s : LocalStorage) : Bool := (getApiKey s).isSome

/-- The state touched by AuthProvider.login: the browser storage and the
`apiKey` React state of the context. -/
structure AuthState where
  storage : LocalStorage
  apiKeyState : Option String

/-- `AuthProvider.login` of contexts/AuthContext.tsx: it awaits the backend
login call first; a rejection propagates before `saveApiKey` and `setApiKey`
run, leaving the state untouched, while a resolution saves the key and
updates the context state. -/
def authLogin (apiResult : Except String Unit) (newApiKey : String)
    (st : AuthState) : AuthState × Except String Unit :=
  match apiResult with
  | .error e => (st, .error e)
  | .ok _ =>
    ({ storage := saveApiKey newApiKey st.storage,
       apiKeyState := some newApiKey }, .ok ())

/-- `HealthStatus` of api.ts. -/
inductive HealthStatus
  | online
  | offline
  | checking
deriving DecidableEq

/-- `HealthResponse` of types.ts. -/
structure HealthResponse where
  message : String
  timestamp : String
  status : String
deriving DecidableEq

/-- The initial state of the `useHealthStatus` hook. -/
def initialHealthStatus : HealthStatus := .checking

/-- One `checkHealth` round of `useHealthStatus` (api.ts lines 230-245): a
resolved `getHealth` whose status field equals healthy sets online, any other
resolved status sets offline, and a rejection sets offline. -/
def statusAfterCheck (result : Except String HealthResponse) : HealthStatus :=
  match result with
  | .ok d => if d.status = "healthy" then .online else .offline
  | .error _ => .offline

end Client

namespace Client

/-- C3: whenever the fetched capacity is known and the message's character
count exceeds it, pressing encode sets an error and returns without issuing
any encode request, and the encode button is disabled. -/
theorem encode_over_capacity_rejected (st : EncodePanelState)
    (imageData imageFormat : String) (algorithm : AlgorithmType) (c : Nat)
    (hcap : st.capacity = some c) (hover : c < st.message.length) :
    (∀ p, handleEncode st imageData imageFormat algorithm ≠ .sendRequest p) ∧
    (∃ m, handleEncode st imageData imageFormat algorithm = .setError m) ∧
    encodeButtonDisabled st = true := by
  unfold handleEncode encodeButtonDisabled isOverCapacity
  rw [hcap]
  by_cases ht : st.message.trim = ""
  · simp [ht, hover]
  · simp [ht, hover]

/-- A concrete over-capacity panel state: a three-character message with a
fetched capacity of two. -/
def c3St : EncodePanelState :=
  { message := "abc", capacity := some 2, loading := false }

/-- Witness for C3: with capacity 2 and the three-character message abc the
handler sets an error, sends nothing, and the button is disabled. -/
theorem encode_over_capacity_rejected_witness :
    (∀ p, handleEncode c3St "imagedata" "png" .LSB ≠ .sendRequest p) ∧
    (∃ m, handleEncode c3St "imagedata" "png" .LSB = .setError m) ∧
    encodeButtonDisabled c3St = true :=
  encode_over_capacity_rejected c3St "imagedata" "png" .LSB 2 rfl (by decide)

lemma except_handling_encode (eb : EncodeBody) :
    (encodeImage eb =
        .ok { code := eb.code.getD 0, message := eb.message,
              timestamp := eb.timestamp, imageData := eb.image_data } ↔
      isSuccessResponse eb.code = true) ∧
    (isSuccessResponse eb.code = false ↔
      encodeImage eb = .error "An unexpected error occurred") := by
  cases heb : isSuccessResponse eb.code <;>
    simp [encodeImage, heb, extractErrorMessage]

lemma except_handling_decode (db : DecodeBody) :
    (decodeImage db =
        .ok { code := db.code.getD 0, message := db.message,
              timestamp := db.timestamp, decodedMessage := db.decoded_message } ↔
      isSuccessResponse db.code = true) ∧
    (isSuccessResponse db.code = false ↔
      decodeImage db = .error "An unexpected error occurred") := by
  cases hdb : isSuccessResponse db.code <;>
    simp [decodeImage, hdb, extractErrorMessage]

lemma except_handling_capacity (cb : CapacityBody) :
    (getImageCapacity cb =
        .ok { code := cb.code.getD 0, message := cb.message,
              timestamp := cb.timestamp,
              capacityCharacters := cb.capacity_characters } ↔
      isSuccessResponse cb.code = true) ∧
    (isSuccessResponse cb.code = false ↔
      getImageCapacity cb = .error "An unexpected error occurred") := by
  cases hcb : isSuccessResponse cb.code <;>
    simp [getImageCapacity, hcb, extractErrorMessage]

lemma except_handling_login (lb : LoginBody) :
    (login lb =
        .ok { code := lb.code.getD 0, message := lb.message,
              timestamp := lb.timestamp } ↔
      isSuccessResponse lb.code = true) ∧
    (isSuccessResponse lb.code = false ↔
      login lb = .error "An unexpected error occurred") := by
  cases hlb : isSuccessResponse lb.code <;>
    simp [login, hlb, extractErrorMessage]

/-- The concrete failure body for the C4 counterexample: code 500 with the
documented failure message. -/
def c4Body : EncodeBody :=
  { code := some 500, message := "Failed to encode image",
    timestamp := "2026-01-17T12:00:00.000000Z", image_data := "" }

/-- Counterexample for C4: on a code-500 body whose message field is present,
`encodeImage` throws, but the Error it throws carries the fixed string from
the generic catch handler, not the body's message field. -/
theorem encodeImage_rewraps_body_message :
    encodeImage c4Body = .error "An unexpected error occurred" ∧
    encodeImage c4Body ≠ .error "Failed to encode image" := by
  refine ⟨rfl, ?_⟩
  intro h
  rw [show encodeImage c4Body = Except.error "An unexpected error occurred"
    from rfl] at h
  exact absurd (Except.error.inj h) (by decide)

/-- C4 (amended): each of the four client functions returns the converted
payload exactly when the body's code field is defined and in the 2xx range;
on every other body it throws and never returns a partial result, but the
thrown Error carries the fixed string of the generic catch handler (the
inner Error holding the body's message is re-wrapped), not the body's
message field. -/
theorem client_response_handling (eb : EncodeBody) (db : DecodeBody)
    (cb : CapacityBody) (lb : LoginBody) :
    (encodeImage eb =
        .ok { code := eb.code.getD 0, message := eb.message,
              timestamp := eb.timestamp, imageData := eb.image_data } ↔
      isSuccessResponse eb.code = true) ∧
    (isSuccessResponse eb.code = false ↔
      encodeImage eb = .error "An unexpected error occurred") ∧
    (decodeImage db =
        .ok { code := db.code.getD 0, message := db.message,
              timestamp := db.timestamp, decodedMessage := db.decoded_message } ↔
      isSuccessResponse db.code = true) ∧
    (isSuccessResponse db.code = false ↔
      decodeImage db = .error "An unexpected error occurred") ∧
    (getImageCapacity cb =
        .ok { code := cb.code.getD 0, message := cb.message,
              timestamp := cb.timestamp,
              capacityCharacters := cb.capacity_characters } ↔
      isSuccessResponse cb.code = true) ∧
    (isSuccessResponse cb.code = false ↔
      getImageCapacity cb = .error "An unexpected error occurred") ∧
    (login lb =
        .ok { code := lb.code.getD 0, message := lb.message,
              timestamp := lb.timestamp } ↔
      isSuccessResponse lb.code = true) ∧
    (isSuccessResponse lb.code = false ↔
      login lb = .error "An unexpected error occurred") :=
  ⟨(except_handling_encode eb).1, (except_handling_encode eb).2,
   (except_handling_decode db).1, (except_handling_decode db).2,
   (except_handling_capacity cb).1, (except_handling_capacity cb).2,
   (except_handling_login lb).1, (except_handling_login lb).2⟩

/-- C6: decoding an image with no embedded message (all carrier slots blank)
returns the empty message rather than failing, and the client treats a
successful decode whose decoded message is the empty string as the
no-message-found display, not as an error. -/
theorem decode_empty_message_handling :
    (∀ (a : StegModel.Algorithm) (w h : Nat),
      StegModel.decode (StegModel.blankImage a w h) a = []) ∧
    (∀ m : String, handleDecodeResult (.ok m) =
      { decodedMessage := some m, error := none, loading := false }) ∧
    decodedDisplay (handleDecodeResult (.ok "")) = .noMessageFound ∧
    (handleDecodeResult (.ok "")).error = none :=
  ⟨fun a w h => StegModel.decode_blankImage a w h,
   fun _ => rfl, by decide, rfl⟩

/-- C7: the algorithm selector is a closed enumeration with exactly the two
values LSB and DCT, wire-encoded as the strings lsb and dct, and the encode,
decode and capacity payloads carry the selected value unchanged. -/
theorem algorithm_enumeration_wire (r1 : EncodeRequest) (r2 : DecodeRequest)
    (r3 : CapacityRequest) :
    wireAlgorithm .LSB = "lsb" ∧ wireAlgorithm .DCT = "dct" ∧
    (∀ a b : AlgorithmType, wireAlgorithm a = wireAlgorithm b → a = b) ∧
    (∀ s : String, (∃ a, wireAlgorithm a = s) ↔ s = "lsb" ∨ s = "dct") ∧
    (encodeWire r1).algorithm = wireAlgorithm r1.algorithm ∧
    (decodeWire r2).algorithm = wireAlgorithm r2.algorithm ∧
    (capacityWire r3).algorithm = wireAlgorithm r3.algorithm := by
  refine ⟨rfl, rfl, ?_, ?_, rfl, rfl, rfl⟩
  · intro a b
    cases a <;> cases b <;> decide
  · intro s
    constructor
    · rintro ⟨a, rfl⟩
      cases a
      · exact Or.inl rfl
      · exact Or.inr rfl
    · rintro (rfl | rfl)
      · exact ⟨.LSB, rfl⟩
      · exact ⟨.DCT, rfl⟩

/-- C8: AuthProvider.login is atomic with respect to the stored credentials:
a rejected backend login leaves the stored API key and the context state
unchanged and propagates the error, while a resolved login saves the key and
updates the state. -/
theorem auth_login_atomic (e newApiKey : String) (st : AuthState) :
    (authLogin (.error e) newApiKey st).1 = st ∧
    getApiKey (authLogin (.error e) newApiKey st).1.storage =
      getApiKey st.storage ∧
    (authLogin (.error e) newApiKey st).1.apiKeyState = st.apiKeyState ∧
    (authLogin (.error e) newApiKey st).2 = .error e ∧
    (authLogin (.ok ()) newApiKey st).1.storage =
      saveApiKey newApiKey st.storage ∧
    (authLogin (.ok ()) newApiKey st).1.apiKeyState = some newApiKey :=
  ⟨rfl, rfl, rfl, rfl, rfl, rfl⟩

/-- C9: after saveApiKey the key reads back and isAuthenticated holds; after
removeApiKey the key is gone and isAuthenticated fails; and isAuthenticated
always equals the presence of a stored key. -/
theorem auth_storage_laws (k : String) (s : LocalStorage) :
    getApiKey (saveApiKey k s) = some k ∧
    isAuthenticated (saveApiKey k s) = true ∧
    getApiKey (removeApiKey s) = none ∧
    isAuthenticated (removeApiKey s) = false ∧
    isAuthenticated s = (getApiKey s).isSome := by
  refine ⟨?_, ?_, ?_, ?_, rfl⟩ <;>
    simp [getApiKey, saveApiKey, removeApiKey, isAuthenticated, getItem,
      setItem, removeItem]

/-- C10: the health status starts as checking, and after a check it is
online exactly when getHealth resolved with status healthy; any other
resolved status and every rejection yield offline. -/
theorem health_status_semantics (r : Except String HealthResponse) :
    initialHealthStatus = .checking ∧
    (statusAfterCheck r = .online ↔ ∃ d, r = .ok d ∧ d.status = "healthy") ∧
    (statusAfterCheck r = .offline ↔
      ¬ ∃ d, r = .ok d ∧ d.status = "healthy") := by
  refine ⟨rfl, ?_, ?_⟩
  · cases r with
    | error e => simp [statusAfterCheck]
    | ok d => by_cases hd : d.status = "healthy" <;> simp [statusAfterCheck, hd]
  · cases r with
    | error e => simp [statusAfterCheck]
    | ok d => by_cases hd : d.status = "healthy" <;> simp [statusAfterCheck, hd]

end Client
